import Mathlib

/-!
Verification development for the CircuLoop campus e-waste management system
(src/CircuLoop.py): a shallow embedding of the `CampusAsset` entity, the
disposal-strategy classifier, and the `CampusInventory` state machine, with
theorems settling the specification's claims.

Modelling conventions:
* Python strings are `String`, Python booleans are `Bool`.
* `age_years` (a Python float entered via `float(input())`, compared with the
  integer literals 3, 5, 7) is modelled as `ℚ`; `battery_health` (a Python
  int) as `ℤ`.
* `datetime.datetime.now()` is modelled by an explicit clock parameter
  (a `Nat` tick for timestamps stored in `last_used`, a `String` for the
  ISO-formatted export timestamp); operations that read the clock take it as
  an argument.
* Python's insertion-ordered `dict` is an association list with unique keys;
  `list` is `List`.
* `print` calls are I/O-only and are dropped from the embedding; the file
  write in `export_to_json` is likewise dropped, keeping the `data` record it
  serializes.
* Dynamic attribute access (`hasattr`/`getattr`/`setattr`) is modelled over
  the 12 instance attributes a `CampusAsset` carries; bound methods (which
  `hasattr` would also see) and ill-typed assignments (which Python would
  accept and crash on later) are outside the embedding's scope.
-/

/-- Enum `DeviceCategory` from the source (categories of electronic devices). -/
inductive DeviceCategory where
  | LAPTOP
  | LAB_EQUIPMENT
  | CONSUMABLE
  | APPLIANCE
  | PERIPHERAL
deriving DecidableEq, Repr

/-- Display value of each `DeviceCategory` member, as in the source enum. -/
def DeviceCategory.value : DeviceCategory → String
  | .LAPTOP => "Laptop"
  | .LAB_EQUIPMENT => "Lab Equipment"
  | .CONSUMABLE => "Consumable"
  | .APPLIANCE => "Appliance"
  | .PERIPHERAL => "Peripheral"

/-- Enum `DisposalStrategy` from the source (end-of-life strategies). -/
inductive DisposalStrategy where
  | RELOCATE
  | REPURPOSE
  | MARKETPLACE
  | STRIP_COMPONENTS
  | RECYCLE
  | HAZARDOUS_DISPOSAL
deriving DecidableEq, Repr

/-- Display value of each `DisposalStrategy` member, as in the source enum. -/
def DisposalStrategy.value : DisposalStrategy → String
  | .RELOCATE => "Relocate to Permanent Campus"
  | .REPURPOSE => "Repurpose/Upcycle for Labs"
  | .MARKETPLACE => "Sell on Marketplace"
  | .STRIP_COMPONENTS => "Strip for Components"
  | .RECYCLE => "Responsible Recycling"
  | .HAZARDOUS_DISPOSAL => "Hazardous Material Disposal"

/-- Dynamic (Python-typed) value of an asset attribute, used for the
reflection-style `getattr` reads in `search_assets` and for the flat record
built by `to_dict`. -/
inductive PyValue where
  | str (s : String)
  | rat (q : ℚ)
  | int (z : ℤ)
  | bool (b : Bool)
  | strategy (d : DisposalStrategy)
  | timeOpt (t : Option Nat)
deriving DecidableEq, Repr

/-- Class `CampusAsset`: the 12 instance attributes set in `__init__`
(in source order). `category` is stored as the raw string the caller passed,
exactly as in the source (the demo passes e.g. "Laptop", "Lab Equipment"). -/
structure CampusAsset where
  asset_id : String
  name : String
  model : String
  category : String
  age_years : ℚ
  battery_health : ℤ
  can_refurbish : Bool
  is_hazardous : Bool
  status : String
  location : String
  last_used : Option Nat
  disposal_strategy : DisposalStrategy
deriving DecidableEq, Repr

/-- Method `CampusAsset.evaluate_disposal_strategy`: the rule chain from the
source, translated if-branch by if-branch (all comparisons strict, first
match wins). It reads only the five attributes the rules mention. -/
def CampusAsset.evaluate_disposal_strategy (a : CampusAsset) : DisposalStrategy :=
  if a.is_hazardous then
    DisposalStrategy.HAZARDOUS_DISPOSAL
  else if a.age_years < 3 ∧ a.battery_health > 70 ∧ a.can_refurbish = true then
    DisposalStrategy.RELOCATE
  else if a.can_refurbish = true ∧ a.age_years < 5 ∧ a.battery_health > 40 then
    DisposalStrategy.MARKETPLACE
  else if a.category = DeviceCategory.LAB_EQUIPMENT.value ∧ a.can_refurbish = true then
    DisposalStrategy.REPURPOSE
  else if a.can_refurbish = false ∧ a.age_years < 7 then
    DisposalStrategy.STRIP_COMPONENTS
  else
    DisposalStrategy.RECYCLE

/-- Constructor `CampusAsset.__init__`: fills the caller-supplied attributes,
the defaults `status = "Dormant"`, `location = "Storage"`, `last_used = None`,
then sets `disposal_strategy = self.evaluate_disposal_strategy()` (the
classifier does not read `disposal_strategy`, so evaluating it on the record
with a placeholder strategy is faithful). -/
def CampusAsset.init (asset_id name model category : String) (age_years : ℚ)
    (battery_health : ℤ) (can_refurbish is_hazardous : Bool) : CampusAsset :=
  let base : CampusAsset :=
    { asset_id := asset_id, name := name, model := model, category := category,
      age_years := age_years, battery_health := battery_health,
      can_refurbish := can_refurbish, is_hazardous := is_hazardous,
      status := "Dormant", location := "Storage", last_used := none,
      disposal_strategy := DisposalStrategy.RECYCLE }
  { base with disposal_strategy := base.evaluate_disposal_strategy }

/-- Method `CampusAsset.update_status`: sets `status`, and stamps `last_used`
with the current time exactly when the new status is the literal "In Use".
The clock is the explicit `now` argument. -/
def CampusAsset.update_status (a : CampusAsset) (new_status : String) (now : Nat) :
    CampusAsset :=
  let a1 := { a with status := new_status }
  if new_status = "In Use" then { a1 with last_used := some now } else a1

/-- Names of the 12 instance attributes of `CampusAsset`, in the order
`__init__` sets them; this is the domain of the modelled `hasattr`. -/
def assetAttrNames : List String :=
  ["asset_id", "name", "model", "category", "age_years", "battery_health",
   "can_refurbish", "is_hazardous", "status", "location", "last_used",
   "disposal_strategy"]

/-- Modelled `getattr` on a `CampusAsset`: `some` of the attribute's dynamic
value for a known attribute name, `none` for an unknown one (where Python's
`hasattr` is false). -/
def CampusAsset.getattr (a : CampusAsset) (key : String) : Option PyValue :=
  if key = "asset_id" then some (.str a.asset_id)
  else if key = "name" then some (.str a.name)
  else if key = "model" then some (.str a.model)
  else if key = "category" then some (.str a.category)
  else if key = "age_years" then some (.rat a.age_years)
  else if key = "battery_health" then some (.int a.battery_health)
  else if key = "can_refurbish" then some (.bool a.can_refurbish)
  else if key = "is_hazardous" then some (.bool a.is_hazardous)
  else if key = "status" then some (.str a.status)
  else if key = "location" then some (.str a.location)
  else if key = "last_used" then some (.timeOpt a.last_used)
  else if key = "disposal_strategy" then some (.strategy a.disposal_strategy)
  else none

/-- Modelled `hasattr` on a `CampusAsset` (restricted to instance attributes). -/
def CampusAsset.hasattr (a : CampusAsset) (key : String) : Bool :=
  (a.getattr key).isSome

/-- One `key=value` entry of the `**kwargs` mapping passed to
`CampusInventory.update_asset`, with the value typed as the named attribute
(Python would also accept ill-typed values and crash on later use; those are
outside the embedding). `unknownField` is a key for which `hasattr` is false. -/
inductive FieldChange where
  | set_asset_id (s : String)
  | set_name (s : String)
  | set_model (s : String)
  | set_category (s : String)
  | set_age_years (q : ℚ)
  | set_battery_health (z : ℤ)
  | set_can_refurbish (b : Bool)
  | set_is_hazardous (b : Bool)
  | set_status (s : String)
  | set_location (s : String)
  | set_last_used (t : Option Nat)
  | set_disposal_strategy (d : DisposalStrategy)
  | unknownField (key : String)
deriving DecidableEq, Repr

/-- One iteration of the update loop in `CampusInventory.update_asset`:
`if hasattr(asset, key): setattr(asset, key, value)` — a known attribute is
assigned, an unknown key is silently ignored. -/
def applyChange (a : CampusAsset) : FieldChange → CampusAsset
  | .set_asset_id s => { a with asset_id := s }
  | .set_name s => { a with name := s }
  | .set_model s => { a with model := s }
  | .set_category s => { a with category := s }
  | .set_age_years q => { a with age_years := q }
  | .set_battery_health z => { a with battery_health := z }
  | .set_can_refurbish b => { a with can_refurbish := b }
  | .set_is_hazardous b => { a with is_hazardous := b }
  | .set_status s => { a with status := s }
  | .set_location s => { a with location := s }
  | .set_last_used t => { a with last_used := t }
  | .set_disposal_strategy d => { a with disposal_strategy := d }
  | .unknownField _ => a

/-- Method `CampusAsset.to_dict`: the flat record the source builds for
storage/display — note it lists 11 keys, and serializes the strategy as its
display string `self.disposal_strategy.value`. -/
def CampusAsset.to_dict (a : CampusAsset) : List (String × PyValue) :=
  [("asset_id", .str a.asset_id),
   ("name", .str a.name),
   ("model", .str a.model),
   ("category", .str a.category),
   ("age_years", .rat a.age_years),
   ("battery_health", .int a.battery_health),
   ("can_refurbish", .bool a.can_refurbish),
   ("is_hazardous", .bool a.is_hazardous),
   ("status", .str a.status),
   ("location", .str a.location),
   ("disposal_strategy", .str a.disposal_strategy.value)]

/-- Python `str.lower()` (ASCII case folding, which covers every string the
program compares), written structurally so the kernel can evaluate it. -/
def strLower (s : String) : String := String.mk (s.data.map Char.toLower)

/-- Keys of an insertion-ordered dict, in order. -/
def dictKeys {α : Type} (m : List (String × α)) : List String := m.map Prod.fst

/-- Membership test `key in dict`. -/
def dictContains {α : Type} (m : List (String × α)) (k : String) : Bool :=
  m.any (fun p => p.1 = k)

/-- Lookup `dict.get(key)` / `dict[key]` (as an `Option`). -/
def dictGet {α : Type} (m : List (String × α)) (k : String) : Option α :=
  (m.find? (fun p => p.1 = k)).map Prod.snd

/-- Assignment `dict[key] = value`: replaces in place when the key exists,
otherwise appends (Python dicts preserve insertion order). -/
def dictSet {α : Type} (m : List (String × α)) (k : String) (v : α) :
    List (String × α) :=
  if dictContains m k then m.map (fun p => if p.1 = k then (k, v) else p)
  else m ++ [(k, v)]

/-- Deletion `del dict[key]`. -/
def dictDel {α : Type} (m : List (String × α)) (k : String) : List (String × α) :=
  m.filter (fun p => p.1 ≠ k)

/-- Least-significant-first decimal digits, structurally recursive on a fuel
argument so that the kernel can evaluate it on literals (the fuel `n` itself
always suffices since `n / 10 < n` for positive `n`). -/
def digitsAuxF : Nat → Nat → List Nat
  | _, 0 => []
  | 0, _ + 1 => []
  | f + 1, n + 1 => ((n + 1) % 10) :: digitsAuxF f ((n + 1) / 10)

/-- Least-significant-first decimal digits of `n` (empty for `n = 0`). -/
def digitsLSB (n : Nat) : List Nat := digitsAuxF n n

/-- Decimal digit characters of `n`, most significant first (the empty list
for `n = 0`). -/
def natToChars (n : Nat) : List Char :=
  ((digitsLSB n).map Nat.digitChar).reverse

/-- Left-pad a character list with '0' to width `w` (no truncation), as
Python's `%04d` / `{:04d}` formatting does. -/
def padZeros (w : Nat) (cs : List Char) : List Char :=
  List.replicate (w - cs.length) '0' ++ cs

/-- Identifier format `f"ASSET-{n:04d}"` from `add_asset`. -/
def formatId (n : Nat) : String :=
  String.mk ("ASSET-".data ++ padZeros 4 (natToChars n))

/-- Class `CampusInventory`: the four fields set in its `__init__`.
`components_library` is initialized and never touched by any operation. -/
structure CampusInventory where
  assets : List (String × CampusAsset)
  next_id : Nat
  marketplace_items : List String
  components_library : List String
deriving DecidableEq, Repr

/-- Constructor `CampusInventory.__init__`: empty map, counter at 1, empty
marketplace and components library. -/
def CampusInventory.init : CampusInventory :=
  { assets := [], next_id := 1, marketplace_items := [], components_library := [] }

/-- Method `CampusInventory._process_asset`: appends the asset's identifier to
the marketplace index exactly when its strategy is `MARKETPLACE` (the other
branches of the source only print). -/
def CampusInventory._process_asset (inv : CampusInventory) (asset : CampusAsset) :
    CampusInventory :=
  if asset.disposal_strategy = DisposalStrategy.MARKETPLACE then
    { inv with marketplace_items := inv.marketplace_items ++ [asset.asset_id] }
  else inv

/-- Method `CampusInventory.add_asset`: formats the next sequential identifier,
increments the counter, constructs the asset (running the classifier), stores
it in the map, then runs `_process_asset`; returns the new identifier. -/
def CampusInventory.add_asset (inv : CampusInventory) (name model category : String)
    (age_years : ℚ) (battery_health : ℤ) (can_refurbish is_hazardous : Bool) :
    String × CampusInventory :=
  let asset_id := formatId inv.next_id
  let inv1 : CampusInventory := { inv with next_id := inv.next_id + 1 }
  let asset := CampusAsset.init asset_id name model category age_years
    battery_health can_refurbish is_hazardous
  let inv2 : CampusInventory := { inv1 with assets := dictSet inv1.assets asset_id asset }
  (asset_id, inv2._process_asset asset)

/-- Method `CampusInventory.delete_asset`: returns `false` leaving everything
unchanged when the identifier is unknown; otherwise deletes the map entry and,
if the identifier is listed, removes its first occurrence from the marketplace
index (Python `list.remove`), returning `true`. -/
def CampusInventory.delete_asset (inv : CampusInventory) (asset_id : String) :
    Bool × CampusInventory :=
  if dictContains inv.assets asset_id then
    (true,
      { inv with
        assets := dictDel inv.assets asset_id,
        marketplace_items :=
          if asset_id ∈ inv.marketplace_items then
            inv.marketplace_items.erase asset_id
          else inv.marketplace_items })
  else (false, inv)

/-- Method `CampusInventory.update_asset`: returns `false` when the identifier
is unknown; otherwise applies each `kwargs` entry through the
`hasattr`-guarded `setattr` loop, then recomputes the disposal strategy, and
returns `true`. The asset object is mutated in place, so the map entry keeps
its key. -/
def CampusInventory.update_asset (inv : CampusInventory) (asset_id : String)
    (kwargs : List FieldChange) : Bool × CampusInventory :=
  match dictGet inv.assets asset_id with
  | none => (false, inv)
  | some asset =>
    let asset1 := kwargs.foldl applyChange asset
    let asset2 := { asset1 with disposal_strategy := asset1.evaluate_disposal_strategy }
    (true, { inv with assets := dictSet inv.assets asset_id asset2 })

/-- Method `CampusInventory.get_asset`: `self.assets.get(asset_id)`. -/
def CampusInventory.get_asset (inv : CampusInventory) (asset_id : String) :
    Option CampusAsset :=
  dictGet inv.assets asset_id

/-- Match test of the `search_assets` loop: an asset matches when no criteria
entry with a known attribute name disagrees with the attribute's value
(entries whose key fails `hasattr` are skipped). The source's early `break`
is observationally the same as `List.all`. -/
def matchesCriteria (a : CampusAsset) (criteria : List (String × PyValue)) : Bool :=
  criteria.all fun kv =>
    match a.getattr kv.1 with
    | some w => w = kv.2
    | none => true

/-- Method `CampusInventory.search_assets`: filters the map's values, in
insertion order, by `matchesCriteria`. -/
def CampusInventory.search_assets (inv : CampusInventory)
    (criteria : List (String × PyValue)) : List CampusAsset :=
  (inv.assets.map Prod.snd).filter (fun a => matchesCriteria a criteria)

/-- Method `CampusInventory.check_procurement_prevention`: collects the assets
whose name matches case-insensitively, whose status is "Dormant" and whose
category matches exactly; returns them when the list is non-empty (Python
truthiness), and `None` otherwise. -/
def CampusInventory.check_procurement_prevention (inv : CampusInventory)
    (device_name device_category : String) : Option (List CampusAsset) :=
  let dormant_matches := (inv.assets.map Prod.snd).filter
    (fun a => strLower a.name = strLower device_name ∧ a.status = "Dormant" ∧
      a.category = device_category)
  if dormant_matches = [] then none else some dormant_matches

/-- Method `CampusInventory.generate_migration_report`: groups the assets, in
map order, into a dict keyed by the strategy's display string (creating the
key on first sight, then appending). -/
def CampusInventory.generate_migration_report (inv : CampusInventory) :
    List (String × List CampusAsset) :=
  inv.assets.foldl
    (fun strategies p =>
      let s := p.2.disposal_strategy.value
      if dictContains strategies s then
        dictSet strategies s (((dictGet strategies s).getD []) ++ [p.2])
      else strategies ++ [(s, [p.2])])
    []

/-- The `data` record built by `export_to_json` (the part that is serialized;
the file write itself is I/O outside the embedding). -/
structure ExportData where
  assets : List (String × List (String × PyValue))
  marketplace : List String
  timestamp : String
deriving DecidableEq, Repr

/-- Method `CampusInventory.export_to_json`: builds the `data` record — each
asset's `to_dict` under its key, the marketplace index, and the ISO-formatted
current time (passed as the explicit clock string `now_iso`). It only reads
the inventory. -/
def CampusInventory.export_to_json (inv : CampusInventory) (now_iso : String) :
    ExportData :=
  { assets := inv.assets.map (fun p => (p.1, p.2.to_dict)),
    marketplace := inv.marketplace_items,
    timestamp := now_iso }

/-- Spec-side classifier, written from the words of spec §4.1 ("Rule
evaluation order", first match wins, strict comparisons), to be compared with
the source-side `CampusAsset.evaluate_disposal_strategy`. -/
def classifySpec (isHazardous : Bool) (ageYears : ℚ) (batteryHealth : ℤ)
    (canRefurbish : Bool) (category : String) : DisposalStrategy :=
  if isHazardous = true then DisposalStrategy.HAZARDOUS_DISPOSAL
  else if ageYears < 3 ∧ batteryHealth > 70 ∧ canRefurbish = true then
    DisposalStrategy.RELOCATE
  else if canRefurbish = true ∧ ageYears < 5 ∧ batteryHealth > 40 then
    DisposalStrategy.MARKETPLACE
  else if category = "Lab Equipment" ∧ canRefurbish = true then
    DisposalStrategy.REPURPOSE
  else if canRefurbish = false ∧ ageYears < 7 then
    DisposalStrategy.STRIP_COMPONENTS
  else DisposalStrategy.RECYCLE

/-- Inventory states reachable from a fresh `CampusInventory()` by the
mutating public operations (the read-only operations `get_asset`,
`search_assets`, `check_procurement_prevention`, `generate_migration_report`
and `export_to_json` return values without producing a new state). -/
inductive Reachable : CampusInventory → Prop where
  | init : Reachable CampusInventory.init
  | add (inv : CampusInventory) (name model category : String) (age_years : ℚ)
      (battery_health : ℤ) (can_refurbish is_hazardous : Bool) :
      Reachable inv →
      Reachable (inv.add_asset name model category age_years battery_health
        can_refurbish is_hazardous).2
  | update (inv : CampusInventory) (asset_id : String) (kwargs : List FieldChange) :
      Reachable inv → Reachable (inv.update_asset asset_id kwargs).2
  | delete (inv : CampusInventory) (asset_id : String) :
      Reachable inv → Reachable (inv.delete_asset asset_id).2

/-- Every key of the asset map is a formatted identifier with counter value
below `next_id`. -/
def KeysBelowCounter (inv : CampusInventory) : Prop :=
  ∀ k ∈ dictKeys inv.assets, ∃ n, n < inv.next_id ∧ k = formatId n

/-- Structural well-formedness maintained by the operations: keys are
formatted counters below `next_id` and are pairwise distinct, and the
marketplace index holds pairwise-distinct identifiers all present in the map. -/
def InventoryWF (inv : CampusInventory) : Prop :=
  KeysBelowCounter inv ∧ (dictKeys inv.assets).Nodup ∧
    (∀ id ∈ inv.marketplace_items, dictContains inv.assets id = true) ∧
    inv.marketplace_items.Nodup

/-- Every stored asset's cached `disposal_strategy` agrees with the
classifier applied to the asset's current attributes (claim C2's invariant). -/
def FreshStrategy (inv : CampusInventory) : Prop :=
  ∀ p ∈ inv.assets, p.2.disposal_strategy = p.2.evaluate_disposal_strategy

/-- Every stored asset's `asset_id` attribute equals the map key it is stored
under (true until an update mutates `asset_id` directly). -/
def KeysMatchIds (inv : CampusInventory) : Prop :=
  ∀ p ∈ inv.assets, p.2.asset_id = p.1

/-- Declarative reading of the search match: every criteria entry naming a
known attribute agrees with the attribute's value (entries with unknown keys
impose nothing). -/
def MatchesCriteriaProp (a : CampusAsset) (criteria : List (String × PyValue)) : Prop :=
  ∀ kv ∈ criteria, ∀ w, a.getattr kv.1 = some w → w = kv.2

/-- Declarative reading of the procurement-prevention match: case-insensitive
name match, "Dormant" status, exact category match. -/
def DormantMatchProp (a : CampusAsset) (device_name device_category : String) : Prop :=
  strLower a.name = strLower device_name ∧ a.status = "Dormant" ∧
    a.category = device_category

/-- Sample state: one young healthy refurbishable laptop; its identifier is
"ASSET-0001" and its strategy RELOCATE. -/
def invOne : CampusInventory :=
  (CampusInventory.init.add_asset "Laptop" "ThinkPad X1" "Laptop" (1 : ℚ) 85
    true false).2

/-- Sample state: one moderately aged refurbishable tablet whose strategy is
MARKETPLACE, so it is listed in the marketplace index. -/
def invMarket : CampusInventory :=
  (CampusInventory.init.add_asset "Tablet" "T200" "Peripheral" (4 : ℚ) 50
    true false).2

/-- Sample state: `invOne` plus an old non-refurbishable projector
("ASSET-0002"). -/
def invTwo : CampusInventory :=
  (invOne.add_asset "Projector" "PX-10" "Appliance" (8 : ℚ) 10 false false).2

/-- Sample state: `invTwo` after an update that overwrites the second asset's
`asset_id` attribute with the first asset's identifier. -/
def invHijack : CampusInventory :=
  (invTwo.update_asset "ASSET-0002" [FieldChange.set_asset_id "ASSET-0001"]).2

/-- An asset with its disposal strategy recomputed, as `update_asset` does
after applying the field changes. -/
def recomputed (a : CampusAsset) : CampusAsset :=
  { a with disposal_strategy := a.evaluate_disposal_strategy }

/-- Numeric value of a decimal digit character (inverse of `Nat.digitChar`
on digits below 10). -/
def charToDigit (c : Char) : Nat := c.toNat - 48

/-- Decode a most-significant-first decimal character list back to a number. -/
def decodeChars (cs : List Char) : Nat :=
  Nat.ofDigits 10 (cs.reverse.map charToDigit)

theorem charToDigit_digitChar : ∀ d, d < 10 → charToDigit (Nat.digitChar d) = d := by
  decide

theorem ofDigits_replicate_zero (k : Nat) :
    Nat.ofDigits 10 (List.replicate k 0) = 0 := by
  induction k with
  | zero => rfl
  | succ n ih => simp [List.replicate, Nat.ofDigits_cons, ih]

theorem digitsAuxF_lt (f n : Nat) : ∀ d ∈ digitsAuxF f n, d < 10 := by
  induction f generalizing n with
  | zero => cases n <;> simp [digitsAuxF]
  | succ f ih =>
    cases n with
    | zero => simp [digitsAuxF]
    | succ m =>
      intro d hd
      simp only [digitsAuxF, List.mem_cons] at hd
      rcases hd with rfl | hd
      · exact Nat.mod_lt _ (by norm_num)
      · exact ih _ d hd

theorem ofDigits_digitsAuxF (f n : Nat) (h : n ≤ f) :
    Nat.ofDigits 10 (digitsAuxF f n) = n := by
  induction f generalizing n with
  | zero =>
    interval_cases n
    rfl
  | succ f ih =>
    cases n with
    | zero => rfl
    | succ m =>
      have hdiv : (m + 1) / 10 ≤ f := by
        have h1 : (m + 1) / 10 < m + 1 := Nat.div_lt_self (Nat.succ_pos m) (by norm_num)
        omega
      simp only [digitsAuxF, Nat.ofDigits_cons, ih _ hdiv]
      omega

theorem ofDigits_digitsLSB (n : Nat) : Nat.ofDigits 10 (digitsLSB n) = n :=
  ofDigits_digitsAuxF n n le_rfl

theorem digitsLSB_lt (n : Nat) : ∀ d ∈ digitsLSB n, d < 10 :=
  digitsAuxF_lt n n

theorem decodeChars_padZeros_natToChars (n : Nat) :
    decodeChars (padZeros 4 (natToChars n)) = n := by
  unfold decodeChars padZeros natToChars
  rw [List.reverse_append, List.reverse_replicate, List.reverse_reverse,
    List.map_append, List.map_replicate, List.map_map]
  have hmap : List.map (charToDigit ∘ Nat.digitChar) (digitsLSB n) =
      digitsLSB n := by
    have h1 : List.map (charToDigit ∘ Nat.digitChar) (digitsLSB n) =
        List.map id (digitsLSB n) := by
      apply List.map_congr_left
      intro d hd
      exact charToDigit_digitChar d (digitsLSB_lt n d hd)
    rw [h1, List.map_id]
  have h0 : charToDigit '0' = 0 := rfl
  rw [hmap, h0, Nat.ofDigits_append, ofDigits_replicate_zero, ofDigits_digitsLSB]
  simp

theorem formatId_injective : Function.Injective formatId := by
  intro m n h
  have hdata : "ASSET-".data ++ padZeros 4 (natToChars m) =
      "ASSET-".data ++ padZeros 4 (natToChars n) := congrArg String.data h
  have hpad := List.append_cancel_left hdata
  have hdec := congrArg decodeChars hpad
  rwa [decodeChars_padZeros_natToChars, decodeChars_padZeros_natToChars] at hdec

theorem dictContains_eq_true_iff {α : Type} (m : List (String × α)) (k : String) :
    dictContains m k = true ↔ k ∈ dictKeys m := by
  simp [dictContains, dictKeys, List.any_eq_true, List.mem_map]

theorem dictContains_eq_false_iff {α : Type} (m : List (String × α)) (k : String) :
    dictContains m k = false ↔ k ∉ dictKeys m := by
  rw [← dictContains_eq_true_iff]
  cases h : dictContains m k <;> simp

theorem dictGet_eq_none_iff {α : Type} (m : List (String × α)) (k : String) :
    dictGet m k = none ↔ dictContains m k = false := by
  simp [dictGet, dictContains, List.find?_eq_none, List.any_eq_true]

theorem dictGet_isSome_of_contains {α : Type} {m : List (String × α)} {k : String}
    (h : dictContains m k = true) : (dictGet m k).isSome = true := by
  cases hg : dictGet m k with
  | none => rw [dictGet_eq_none_iff] at hg; rw [h] at hg; cases hg
  | some v => rfl

theorem find?_map_replace {α : Type} (m : List (String × α)) (k : String) (v : α)
    (h : dictContains m k = true) :
    List.find? (fun p => decide (p.1 = k))
      (m.map (fun p => if p.1 = k then (k, v) else p)) = some (k, v) := by
  induction m with
  | nil => simp [dictContains] at h
  | cons q rest ih =>
    by_cases hq : q.1 = k
    · simp [List.find?, hq]
    · have hrest : dictContains rest k = true := by
        simp only [dictContains, List.any_cons] at h
        rcases Bool.or_eq_true_iff.mp h with hh | hh
        · exact absurd (of_decide_eq_true hh) hq
        · exact hh
      simp only [List.map_cons, if_neg hq]
      rw [List.find?_cons_of_neg _ (by simpa using hq)]
      exact ih hrest

theorem dictGet_dictSet_self {α : Type} (m : List (String × α)) (k : String) (v : α) :
    dictGet (dictSet m k v) k = some v := by
  by_cases h : dictContains m k = true
  · simp only [dictGet, dictSet, h, if_true]
    rw [find?_map_replace m k v h]
    rfl
  · have hfalse : dictContains m k = false := by
      cases hc : dictContains m k
      · rfl
      · exact absurd hc h
    simp only [dictGet, dictSet, hfalse, Bool.false_eq_true, if_false]
    have hm_none : List.find? (fun p => decide (p.1 = k)) m = none := by
      rw [List.find?_eq_none]
      intro p hp hpk
      have hk : dictContains m k = true := by
        simp only [dictContains, List.any_eq_true]
        exact ⟨p, hp, hpk⟩
      rw [hfalse] at hk
      cases hk
    rw [List.find?_append, hm_none]
    simp [List.find?]

theorem dictKeys_dictSet_of_contains {α : Type} {m : List (String × α)} {k : String}
    (v : α) (h : dictContains m k = true) :
    dictKeys (dictSet m k v) = dictKeys m := by
  simp only [dictSet, h, if_true, dictKeys, List.map_map]
  apply List.map_congr_left
  intro p _
  by_cases hp : p.1 = k
  · simp [Function.comp, hp]
  · simp [Function.comp, hp]

theorem dictKeys_dictSet_of_not_contains {α : Type} {m : List (String × α)}
    {k : String} (v : α) (h : dictContains m k = false) :
    dictKeys (dictSet m k v) = dictKeys m ++ [k] := by
  simp only [dictSet, h, Bool.false_eq_true, if_false, dictKeys, List.map_append]
  rfl

theorem mem_pairs_dictSet {α : Type} {m : List (String × α)} {k : String} {v : α}
    {p : String × α} (h : p ∈ dictSet m k v) : p ∈ m ∨ p.2 = v := by
  simp only [dictSet] at h
  by_cases hc : dictContains m k = true
  · rw [if_pos hc] at h
    rcases List.mem_map.mp h with ⟨q, hq, hfq⟩
    by_cases hqk : q.1 = k
    · right
      rw [if_pos hqk] at hfq
      rw [← hfq]
    · left
      rw [if_neg hqk] at hfq
      rwa [← hfq]
  · rw [if_neg hc] at h
    rcases List.mem_append.mp h with h | h
    · exact Or.inl h
    · right
      rcases List.mem_singleton.mp h with rfl
      rfl

theorem dictKeys_dictDel {α : Type} (m : List (String × α)) (k : String) :
    dictKeys (dictDel m k) = (dictKeys m).filter (fun x => x ≠ k) := by
  induction m with
  | nil => rfl
  | cons q rest ih =>
    by_cases hq : q.1 = k
    · simp [dictDel, dictKeys, List.filter, hq] at ih ⊢
      exact ih
    · simp [dictDel, dictKeys, List.filter, hq] at ih ⊢
      exact ih

theorem dictGet_dictDel_self {α : Type} (m : List (String × α)) (k : String) :
    dictGet (dictDel m k) k = none := by
  rw [dictGet_eq_none_iff, dictContains_eq_false_iff, dictKeys_dictDel]
  intro hmem
  rcases List.mem_filter.mp hmem with ⟨_, hne⟩
  simp at hne

theorem mem_pairs_dictDel {α : Type} {m : List (String × α)} {k : String}
    {p : String × α} (h : p ∈ dictDel m k) : p ∈ m ∧ p.1 ≠ k := by
  rcases List.mem_filter.mp h with ⟨hm, hne⟩
  refine ⟨hm, ?_⟩
  simpa using hne

theorem contains_of_dictGet_some {α : Type} {m : List (String × α)} {k : String}
    {a : α} (h : dictGet m k = some a) : dictContains m k = true := by
  cases hc : dictContains m k
  · rw [(dictGet_eq_none_iff m k).mpr hc] at h
    cases h
  · rfl

theorem evaluate_set_disposal_strategy (a : CampusAsset) (d : DisposalStrategy) :
    CampusAsset.evaluate_disposal_strategy { a with disposal_strategy := d } =
      a.evaluate_disposal_strategy := rfl

theorem asset_init_fresh (asset_id name model category : String) (age_years : ℚ)
    (battery_health : ℤ) (can_refurbish is_hazardous : Bool) :
    (CampusAsset.init asset_id name model category age_years battery_health
      can_refurbish is_hazardous).disposal_strategy =
    (CampusAsset.init asset_id name model category age_years battery_health
      can_refurbish is_hazardous).evaluate_disposal_strategy := rfl

theorem asset_init_asset_id (asset_id name model category : String) (age_years : ℚ)
    (battery_health : ℤ) (can_refurbish is_hazardous : Bool) :
    (CampusAsset.init asset_id name model category age_years battery_health
      can_refurbish is_hazardous).asset_id = asset_id := rfl

theorem applyChange_asset_id (a : CampusAsset) (c : FieldChange)
    (h : ∀ s, c ≠ FieldChange.set_asset_id s) :
    (applyChange a c).asset_id = a.asset_id := by
  cases c with
  | set_asset_id s => exact absurd rfl (h s)
  | set_name s => rfl
  | set_model s => rfl
  | set_category s => rfl
  | set_age_years q => rfl
  | set_battery_health z => rfl
  | set_can_refurbish b => rfl
  | set_is_hazardous b => rfl
  | set_status s => rfl
  | set_location s => rfl
  | set_last_used t => rfl
  | set_disposal_strategy d => rfl
  | unknownField k => rfl

theorem foldl_applyChange_asset_id (kwargs : List FieldChange) (a : CampusAsset)
    (h : ∀ s, FieldChange.set_asset_id s ∉ kwargs) :
    (kwargs.foldl applyChange a).asset_id = a.asset_id := by
  induction kwargs generalizing a with
  | nil => rfl
  | cons c rest ih =>
    rw [List.foldl_cons]
    have hc : ∀ s, c ≠ FieldChange.set_asset_id s := by
      intro s hcs
      exact h s (by rw [← hcs]; exact List.mem_cons_self c rest)
    have hrest : ∀ s, FieldChange.set_asset_id s ∉ rest := by
      intro s hs
      exact h s (List.mem_cons_of_mem c hs)
    rw [ih (applyChange a c) hrest, applyChange_asset_id a c hc]

theorem process_asset_assets (inv : CampusInventory) (asset : CampusAsset) :
    (inv._process_asset asset).assets = inv.assets := by
  unfold CampusInventory._process_asset
  split <;> rfl

theorem process_asset_next_id (inv : CampusInventory) (asset : CampusAsset) :
    (inv._process_asset asset).next_id = inv.next_id := by
  unfold CampusInventory._process_asset
  split <;> rfl

theorem process_asset_marketplace (inv : CampusInventory) (asset : CampusAsset) :
    (inv._process_asset asset).marketplace_items =
      if asset.disposal_strategy = DisposalStrategy.MARKETPLACE then
        inv.marketplace_items ++ [asset.asset_id]
      else inv.marketplace_items := by
  unfold CampusInventory._process_asset
  split <;> simp_all

theorem add_asset_assets (inv : CampusInventory) (name model category : String)
    (age_years : ℚ) (battery_health : ℤ) (can_refurbish is_hazardous : Bool) :
    (inv.add_asset name model category age_years battery_health can_refurbish
      is_hazardous).2.assets =
    dictSet inv.assets (formatId inv.next_id)
      (CampusAsset.init (formatId inv.next_id) name model category age_years
        battery_health can_refurbish is_hazardous) := by
  unfold CampusInventory.add_asset
  rw [process_asset_assets]

theorem add_asset_next_id (inv : CampusInventory) (name model category : String)
    (age_years : ℚ) (battery_health : ℤ) (can_refurbish is_hazardous : Bool) :
    (inv.add_asset name model category age_years battery_health can_refurbish
      is_hazardous).2.next_id = inv.next_id + 1 := by
  unfold CampusInventory.add_asset
  rw [process_asset_next_id]

theorem add_asset_marketplace (inv : CampusInventory) (name model category : String)
    (age_years : ℚ) (battery_health : ℤ) (can_refurbish is_hazardous : Bool) :
    (inv.add_asset name model category age_years battery_health can_refurbish
      is_hazardous).2.marketplace_items =
    (if (CampusAsset.init (formatId inv.next_id) name model category age_years
          battery_health can_refurbish is_hazardous).disposal_strategy =
        DisposalStrategy.MARKETPLACE then
      inv.marketplace_items ++ [formatId inv.next_id]
    else inv.marketplace_items) := by
  unfold CampusInventory.add_asset
  rw [process_asset_marketplace]
  rfl

theorem update_asset_not_found (inv : CampusInventory) (asset_id : String)
    (kwargs : List FieldChange) (h : dictGet inv.assets asset_id = none) :
    inv.update_asset asset_id kwargs = (false, inv) := by
  unfold CampusInventory.update_asset
  rw [h]

theorem update_asset_found (inv : CampusInventory) (asset_id : String)
    (kwargs : List FieldChange) (a : CampusAsset)
    (h : dictGet inv.assets asset_id = some a) :
    inv.update_asset asset_id kwargs =
      (true,
        { inv with
          assets := dictSet inv.assets asset_id (recomputed (kwargs.foldl applyChange a)) }) := by
  unfold CampusInventory.update_asset recomputed
  rw [h]

theorem delete_asset_not_found (inv : CampusInventory) (asset_id : String)
    (h : dictContains inv.assets asset_id = false) :
    inv.delete_asset asset_id = (false, inv) := by
  unfold CampusInventory.delete_asset
  rw [h]
  simp

theorem delete_asset_found (inv : CampusInventory) (asset_id : String)
    (h : dictContains inv.assets asset_id = true) :
    inv.delete_asset asset_id =
      (true,
        { inv with
          assets := dictDel inv.assets asset_id,
          marketplace_items :=
            if asset_id ∈ inv.marketplace_items then
              inv.marketplace_items.erase asset_id
            else inv.marketplace_items }) := by
  unfold CampusInventory.delete_asset
  rw [h]
  simp

theorem fresh_id_not_in_keys {inv : CampusInventory} (h : KeysBelowCounter inv) :
    dictContains inv.assets (formatId inv.next_id) = false := by
  rw [dictContains_eq_false_iff]
  intro hmem
  rcases h _ hmem with ⟨n, hn, heq⟩
  have := formatId_injective heq
  omega

theorem reachable_inventoryWF {inv : CampusInventory} (h : Reachable inv) :
    InventoryWF inv := by
  induction h with
  | init =>
    refine ⟨?_, ?_, ?_, ?_⟩ <;>
      simp [CampusInventory.init, KeysBelowCounter, dictKeys]
  | add inv name model category age_years battery_health can_refurbish is_hazardous hR ih =>
    obtain ⟨hbelow, hnodup, hmarket, hmnodup⟩ := ih
    have hfresh := fresh_id_not_in_keys hbelow
    have hfreshmem : formatId inv.next_id ∉ dictKeys inv.assets :=
      (dictContains_eq_false_iff _ _).mp hfresh
    have hkeys :
        dictKeys (inv.add_asset name model category age_years battery_health
          can_refurbish is_hazardous).2.assets =
        dictKeys inv.assets ++ [formatId inv.next_id] := by
      rw [add_asset_assets, dictKeys_dictSet_of_not_contains _ hfresh]
    have hnid :
        (inv.add_asset name model category age_years battery_health
          can_refurbish is_hazardous).2.next_id = inv.next_id + 1 :=
      add_asset_next_id ..
    have hmkt :=
      add_asset_marketplace inv name model category age_years battery_health
        can_refurbish is_hazardous
    have hmarket_not_fresh : formatId inv.next_id ∉ inv.marketplace_items := by
      intro hmem
      have := (dictContains_eq_true_iff _ _).mp (hmarket _ hmem)
      exact hfreshmem this
    refine ⟨?_, ?_, ?_, ?_⟩
    · intro k hk
      rw [hkeys] at hk
      rw [hnid]
      rcases List.mem_append.mp hk with hk | hk
      · rcases hbelow k hk with ⟨n, hn, heq⟩
        exact ⟨n, by omega, heq⟩
      · rcases List.mem_singleton.mp hk with rfl
        exact ⟨inv.next_id, by omega, rfl⟩
    · rw [hkeys]
      exact List.Nodup.append hnodup (List.nodup_singleton _)
        (List.disjoint_singleton.mpr hfreshmem)
    · intro id hid
      rw [dictContains_eq_true_iff, hkeys]
      rw [hmkt] at hid
      by_cases hstrat :
          (CampusAsset.init (formatId inv.next_id) name model category age_years
            battery_health can_refurbish is_hazardous).disposal_strategy =
          DisposalStrategy.MARKETPLACE
      · rw [if_pos hstrat] at hid
        rcases List.mem_append.mp hid with hid | hid
        · exact List.mem_append.mpr
            (Or.inl ((dictContains_eq_true_iff _ _).mp (hmarket _ hid)))
        · exact List.mem_append.mpr (Or.inr hid)
      · rw [if_neg hstrat] at hid
        exact List.mem_append.mpr
          (Or.inl ((dictContains_eq_true_iff _ _).mp (hmarket _ hid)))
    · rw [hmkt]
      by_cases hstrat :
          (CampusAsset.init (formatId inv.next_id) name model category age_years
            battery_health can_refurbish is_hazardous).disposal_strategy =
          DisposalStrategy.MARKETPLACE
      · rw [if_pos hstrat]
        exact List.Nodup.append hmnodup (List.nodup_singleton _)
          (List.disjoint_singleton.mpr hmarket_not_fresh)
      · rw [if_neg hstrat]
        exact hmnodup
  | update inv asset_id kwargs hR ih =>
    obtain ⟨hbelow, hnodup, hmarket, hmnodup⟩ := ih
    cases hget : dictGet inv.assets asset_id with
    | none =>
      rw [update_asset_not_found inv asset_id kwargs hget]
      exact ⟨hbelow, hnodup, hmarket, hmnodup⟩
    | some a =>
      rw [update_asset_found inv asset_id kwargs a hget]
      have hcont := contains_of_dictGet_some hget
      have hkeys :
          dictKeys (dictSet inv.assets asset_id
            (recomputed (kwargs.foldl applyChange a))) = dictKeys inv.assets :=
        dictKeys_dictSet_of_contains _ hcont
      refine ⟨?_, ?_, ?_, ?_⟩
      · intro k hk
        rw [hkeys] at hk
        exact hbelow k hk
      · rw [hkeys]
        exact hnodup
      · intro id hid
        rw [dictContains_eq_true_iff, hkeys]
        exact (dictContains_eq_true_iff _ _).mp (hmarket _ hid)
      · exact hmnodup
  | delete inv asset_id hR ih =>
    obtain ⟨hbelow, hnodup, hmarket, hmnodup⟩ := ih
    cases hcont : dictContains inv.assets asset_id with
    | false =>
      rw [delete_asset_not_found inv asset_id hcont]
      exact ⟨hbelow, hnodup, hmarket, hmnodup⟩
    | true =>
      rw [delete_asset_found inv asset_id hcont]
      have hkeys := dictKeys_dictDel inv.assets asset_id
      refine ⟨?_, ?_, ?_, ?_⟩
      · intro k hk
        rw [hkeys] at hk
        exact hbelow k (List.mem_filter.mp hk).1
      · rw [hkeys]
        exact List.Nodup.filter _ hnodup
      · intro id hid
        rw [dictContains_eq_true_iff, hkeys, List.mem_filter]
        by_cases hin : asset_id ∈ inv.marketplace_items
        · rw [if_pos hin] at hid
          have hne : id ≠ asset_id :=
            ((List.Nodup.mem_erase_iff hmnodup).mp hid).1
          have hmem : id ∈ inv.marketplace_items :=
            ((List.Nodup.mem_erase_iff hmnodup).mp hid).2
          refine ⟨(dictContains_eq_true_iff _ _).mp (hmarket _ hmem), ?_⟩
          simpa using hne
        · rw [if_neg hin] at hid
          have hne : id ≠ asset_id := by
            intro heq
            rw [heq] at hid
            exact hin hid
          refine ⟨(dictContains_eq_true_iff _ _).mp (hmarket _ hid), ?_⟩
          simpa using hne
      · by_cases hin : asset_id ∈ inv.marketplace_items
        · rw [if_pos hin]
          exact List.Nodup.erase _ hmnodup
        · rw [if_neg hin]
          exact hmnodup

theorem reachable_freshStrategy {inv : CampusInventory} (h : Reachable inv) :
    FreshStrategy inv := by
  induction h with
  | init => intro p hp; cases hp
  | add inv name model category age_years battery_health can_refurbish is_hazardous hR ih =>
    intro p hp
    rw [add_asset_assets] at hp
    rcases mem_pairs_dictSet hp with hp | hp
    · exact ih p hp
    · rw [hp]
      exact asset_init_fresh ..
  | update inv asset_id kwargs hR ih =>
    intro p hp
    cases hget : dictGet inv.assets asset_id with
    | none =>
      rw [update_asset_not_found inv asset_id kwargs hget] at hp
      exact ih p hp
    | some a =>
      rw [update_asset_found inv asset_id kwargs a hget] at hp
      rcases mem_pairs_dictSet hp with hp | hp
      · exact ih p hp
      · rw [hp]
        exact (evaluate_set_disposal_strategy _ _).symm
  | delete inv asset_id hR ih =>
    intro p hp
    cases hcont : dictContains inv.assets asset_id with
    | false =>
      rw [delete_asset_not_found inv asset_id hcont] at hp
      exact ih p hp
    | true =>
      rw [delete_asset_found inv asset_id hcont] at hp
      exact ih p (mem_pairs_dictDel hp).1

/-- C1: the disposal-strategy classifier is a pure, total, deterministic
function of (is_hazardous, age_years, battery_health, can_refurbish,
category): for every asset it returns exactly the first-match evaluation of
the six spec rules in order, with all comparisons strict (so boundary values
age 3, 5, 7 and battery 70, 40 fall through to the next rule) and the
hazardous check dominating. -/
theorem C1_classifier_equals_spec_rules (a : CampusAsset) :
    a.evaluate_disposal_strategy =
      classifySpec a.is_hazardous a.age_years a.battery_health a.can_refurbish
        a.category := rfl

/-- C2: in every inventory state reachable through the public operations,
every stored asset's cached disposal_strategy equals the classifier applied
to the asset's current attribute values — the derived strategy is never
stale after any mutation (the read-only operations return values without
producing a new state). -/
theorem C2_strategy_never_stale (inv : CampusInventory) (h : Reachable inv) :
    ∀ p ∈ inv.assets, p.2.disposal_strategy = p.2.evaluate_disposal_strategy :=
  reachable_freshStrategy h

/-- Witness for C2 at the concrete one-asset state `invOne`. -/
theorem C2_strategy_never_stale_witness :
    Reachable invOne ∧
      ∀ p ∈ invOne.assets, p.2.disposal_strategy = p.2.evaluate_disposal_strategy := by
  have hr : Reachable invOne :=
    Reachable.add CampusInventory.init "Laptop" "ThinkPad X1" "Laptop" 1 85 true
      false Reachable.init
  exact ⟨hr, C2_strategy_never_stale invOne hr⟩

/-- C3 counterexample: the claim says a criteria mapping containing a field
name that is not an Asset attribute excludes every asset; but on the
one-asset state, searching with the unknown field "bogus" still returns the
asset (the source skips keys that fail `hasattr`). -/
theorem C3_counterexample :
    invOne.search_assets [("bogus", PyValue.str "x")] ≠ [] := by decide

/-- C3 (amended): search_assets returns exactly the assets where every
criteria entry naming a known attribute matches by equality; entries with
unknown field names are ignored (they exclude nothing), and empty criteria
matches all assets. -/
theorem C3_search_semantics (inv : CampusInventory)
    (criteria : List (String × PyValue)) :
    inv.search_assets criteria =
      (inv.assets.map Prod.snd).filter (fun a => matchesCriteria a criteria) ∧
    (∀ a, matchesCriteria a criteria = true ↔ MatchesCriteriaProp a criteria) ∧
    inv.search_assets [] = inv.assets.map Prod.snd := by
  refine ⟨rfl, ?_, ?_⟩
  · intro a
    rw [matchesCriteria, List.all_eq_true]
    constructor
    · intro h kv hkv w hw
      have := h kv hkv
      rw [hw] at this
      exact of_decide_eq_true this
    · intro h kv hkv
      cases hg : a.getattr kv.1 with
      | none => simp [hg]
      | some w =>
        simp only [hg]
        exact decide_eq_true (h kv hkv w hg)
  · simp [CampusInventory.search_assets, matchesCriteria, List.filter_eq_self]

/-- Witness for C3 (amended) at the concrete state `invOne` with a criteria
mapping whose only entry names the known attribute "status". -/
theorem C3_search_semantics_witness :
    invOne.search_assets [("status", PyValue.str "Dormant")] =
      invOne.assets.map Prod.snd := by
  have h := (C3_search_semantics invOne [("status", PyValue.str "Dormant")]).1
  rw [h]
  decide

/-- C4 counterexample: the claim says that with no matching asset the
returned value is an empty sequence rather than an absence marker; on the
empty inventory the source returns `None` (the absence marker), which is not
the empty sequence. -/
theorem C4_counterexample :
    CampusInventory.init.check_procurement_prevention "Laptop" "Laptop" = none ∧
    (none : Option (List CampusAsset)) ≠ some [] := by decide

/-- C4 (amended): check_procurement_prevention returns the ordered sequence
of exactly the assets matching case-insensitively by name, with status
"Dormant" and exact category, wrapped as a present value when at least one
matches; when no asset matches it returns the absence marker None (not an
empty sequence), which signals procurement approved. -/
theorem C4_procurement_semantics (inv : CampusInventory)
    (device_name device_category : String) :
    (inv.check_procurement_prevention device_name device_category = none ↔
      ∀ a ∈ inv.assets.map Prod.snd,
        ¬ DormantMatchProp a device_name device_category) ∧
    (∀ l, inv.check_procurement_prevention device_name device_category = some l →
      l = (inv.assets.map Prod.snd).filter
        (fun a => strLower a.name = strLower device_name ∧ a.status = "Dormant" ∧
          a.category = device_category) ∧ l ≠ []) := by
  constructor
  · unfold CampusInventory.check_procurement_prevention
    dsimp only
    split
    · rename_i hnil
      simp only [true_iff]
      rw [List.filter_eq_nil_iff] at hnil
      intro a ha hm
      refine hnil a ha (decide_eq_true ?_)
      exact hm
    · rename_i hnil
      constructor
      · intro h
        cases h
      · intro hall
        exfalso
        apply hnil
        rw [List.filter_eq_nil_iff]
        intro a ha hda
        have hp : strLower a.name = strLower device_name ∧ a.status = "Dormant" ∧
            a.category = device_category := of_decide_eq_true hda
        exact hall a ha hp
  · intro l hl
    unfold CampusInventory.check_procurement_prevention at hl
    dsimp only at hl
    split at hl
    · cases hl
    · rename_i hnil
      cases hl
      exact ⟨rfl, hnil⟩

/-- Witness for C4 (amended) at the concrete state `invOne` with a
case-insensitive name match: the dormant laptop is found and returned as a
present, non-empty sequence. -/
theorem C4_procurement_semantics_witness :
    invOne.check_procurement_prevention "LAPTOP" "Laptop" =
      some (invOne.assets.map Prod.snd) ∧
    invOne.assets.map Prod.snd ≠ [] := by
  have h := (C4_procurement_semantics invOne "LAPTOP" "Laptop").2
    (invOne.assets.map Prod.snd) (by decide)
  exact ⟨by decide, h.2⟩

/-- C5 counterexample: the claim says a successful
update_asset(id, {status: "In Use"}) stamps last_used (makes it non-absent);
on the one-asset state the update succeeds yet last_used is still absent —
the source's update loop assigns status with `setattr` and never calls
`update_status`, so no stamping happens. -/
theorem C5_counterexample :
    (invOne.update_asset "ASSET-0001" [FieldChange.set_status "In Use"]).1 = true ∧
    ((invOne.update_asset "ASSET-0001"
        [FieldChange.set_status "In Use"]).2.get_asset "ASSET-0001").map
      CampusAsset.last_used = some none := by decide

/-- C5 (amended): for an identifier present in the inventory,
update_asset(id, {status: s}) succeeds for every string s (no closed status
set), stores the asset with status s, and leaves last_used exactly as it
was — update_asset never stamps last_used, for "In Use" or any other value.
The stamping behaviour exists only in the (uncalled by the inventory) method
CampusAsset.update_status, which sets last_used to the current time exactly
when the new status is "In Use". -/
theorem C5_update_status_semantics (inv : CampusInventory) (asset_id : String)
    (s : String) (a : CampusAsset)
    (h : dictGet inv.assets asset_id = some a) :
    (inv.update_asset asset_id [FieldChange.set_status s]).1 = true ∧
    dictGet (inv.update_asset asset_id
        [FieldChange.set_status s]).2.assets asset_id =
      some (recomputed { a with status := s }) ∧
    (recomputed { a with status := s }).last_used = a.last_used ∧
    (recomputed { a with status := s }).status = s ∧
    (∀ now, (a.update_status s now).status = s ∧
      (a.update_status s now).last_used =
        if s = "In Use" then some now else a.last_used) := by
  rw [update_asset_found inv asset_id [FieldChange.set_status s] a h]
  refine ⟨rfl, ?_, rfl, rfl, ?_⟩
  · exact dictGet_dictSet_self ..
  · intro now
    unfold CampusAsset.update_status
    by_cases hs : s = "In Use"
    · rw [if_pos hs]
      exact ⟨rfl, by rw [if_pos hs]⟩
    · rw [if_neg hs]
      exact ⟨rfl, by rw [if_neg hs]⟩

/-- Witness for C5 (amended) at the concrete state `invOne` with the status
"In Use": the update succeeds, status becomes "In Use", and last_used stays
absent. -/
theorem C5_update_status_semantics_witness :
    (invOne.update_asset "ASSET-0001" [FieldChange.set_status "In Use"]).1 = true ∧
    ((invOne.update_asset "ASSET-0001"
        [FieldChange.set_status "In Use"]).2.get_asset "ASSET-0001").map
      CampusAsset.status = some "In Use" := by
  obtain ⟨a, ha⟩ : ∃ a, dictGet invOne.assets "ASSET-0001" = some a :=
    ⟨CampusAsset.init "ASSET-0001" "Laptop" "ThinkPad X1" "Laptop" 1 85 true false,
      by decide⟩
  have h := C5_update_status_semantics invOne "ASSET-0001" "In Use" a ha
  refine ⟨h.1, ?_⟩
  show (dictGet (invOne.update_asset "ASSET-0001"
    [FieldChange.set_status "In Use"]).2.assets "ASSET-0001").map
      CampusAsset.status = some "In Use"
  rw [h.2.1]
  rfl

/-- C6 counterexample: the claim says that even when the change mapping
contains the key asset_id, the asset stored under key id keeps asset_id
equal to id; but the source's `setattr` loop applies asset_id changes, so
after update_asset("ASSET-0002", {asset_id: "ASSET-0001"}) the asset stored
under "ASSET-0002" carries asset_id "ASSET-0001". -/
theorem C6_counterexample :
    (invTwo.update_asset "ASSET-0002" [FieldChange.set_asset_id "ASSET-0001"]).1 =
      true ∧
    (invHijack.get_asset "ASSET-0002").map CampusAsset.asset_id =
      some "ASSET-0001" ∧
    some "ASSET-0001" ≠ some "ASSET-0002" := by decide

/-- C6 (amended): the key under which an asset is stored never changes
(update_asset preserves the key list exactly), and update_asset preserves
the stored asset's asset_id attribute whenever the change mapping contains
no asset_id entry — only an explicit asset_id entry in the mapping can
overwrite the attribute (the map key stays put even then). -/
theorem C6_key_stable_id_preserved (inv : CampusInventory) (asset_id : String)
    (kwargs : List FieldChange) :
    dictKeys (inv.update_asset asset_id kwargs).2.assets = dictKeys inv.assets ∧
    ((∀ s, FieldChange.set_asset_id s ∉ kwargs) →
      ∀ a, dictGet inv.assets asset_id = some a →
        dictGet (inv.update_asset asset_id kwargs).2.assets asset_id =
          some (recomputed (kwargs.foldl applyChange a)) ∧
        (recomputed (kwargs.foldl applyChange a)).asset_id = a.asset_id) := by
  constructor
  · cases hget : dictGet inv.assets asset_id with
    | none => rw [update_asset_not_found inv asset_id kwargs hget]
    | some a =>
      rw [update_asset_found inv asset_id kwargs a hget]
      exact dictKeys_dictSet_of_contains _ (contains_of_dictGet_some hget)
  · intro hno a hget
    rw [update_asset_found inv asset_id kwargs a hget]
    refine ⟨dictGet_dictSet_self .., ?_⟩
    show (kwargs.foldl applyChange a).asset_id = a.asset_id
    exact foldl_applyChange_asset_id kwargs a hno

/-- Witness for C6 (amended) at the concrete state `invOne` with a change
mapping that touches status but not asset_id. -/
theorem C6_key_stable_id_preserved_witness :
    dictKeys (invOne.update_asset "ASSET-0001"
        [FieldChange.set_status "Broken"]).2.assets = dictKeys invOne.assets ∧
    (dictGet (invOne.update_asset "ASSET-0001"
        [FieldChange.set_status "Broken"]).2.assets "ASSET-0001").map
      CampusAsset.asset_id = some "ASSET-0001" := by
  have hno : ∀ s, FieldChange.set_asset_id s ∉ [FieldChange.set_status "Broken"] := by
    intro s hs
    rcases List.mem_singleton.mp hs with h
    cases h
  have ha : dictGet invOne.assets "ASSET-0001" =
      some (CampusAsset.init "ASSET-0001" "Laptop" "ThinkPad X1" "Laptop" 1 85
        true false) := by decide
  have h := C6_key_stable_id_preserved invOne "ASSET-0001"
    [FieldChange.set_status "Broken"]
  have h2 := h.2 hno _ ha
  refine ⟨h.1, ?_⟩
  rw [h2.1, Option.map_some', h2.2]
  rfl

/-- C7 counterexample: in the reachable state `invHijack` (built by add, add,
then an update that overwrites the second asset's asset_id with the first's
identifier), delete_asset("ASSET-0001") succeeds, yet an asset with
identifier "ASSET-0001" still appears in the all-assets search result — so
"id appears in no search result" fails as stated. -/
theorem C7_counterexample :
    Reachable invHijack ∧
    (invHijack.delete_asset "ASSET-0001").1 = true ∧
    (invHijack.delete_asset "ASSET-0001").2.get_asset "ASSET-0001" = none ∧
    ((invHijack.delete_asset "ASSET-0001").2.search_assets []).map
      CampusAsset.asset_id = ["ASSET-0001"] := by
  refine ⟨?_, by decide, by decide, by decide⟩
  exact Reachable.update invTwo "ASSET-0002" [FieldChange.set_asset_id "ASSET-0001"]
    (Reachable.add invOne "Projector" "PX-10" "Appliance" 8 10 false false
      (Reachable.add CampusInventory.init "Laptop" "ThinkPad X1" "Laptop" 1 85
        true false Reachable.init))

/-- C7 (amended): in every reachable inventory state, delete_asset on an
unknown identifier returns false and changes nothing; on a present
identifier it returns true, removes the map entry (get_asset returns absent
and the key is gone) and removes the identifier from the marketplace index;
and provided every stored asset's asset_id attribute still equals its
storage key (as holds unless an update has overwritten asset_id), no asset
in any subsequent search result carries the deleted identifier. -/
theorem C7_delete_semantics (inv : CampusInventory) (asset_id : String)
    (h : Reachable inv) :
    (dictContains inv.assets asset_id = false →
      inv.delete_asset asset_id = (false, inv)) ∧
    (dictContains inv.assets asset_id = true →
      (inv.delete_asset asset_id).1 = true ∧
      (inv.delete_asset asset_id).2.get_asset asset_id = none ∧
      dictContains (inv.delete_asset asset_id).2.assets asset_id = false ∧
      asset_id ∉ (inv.delete_asset asset_id).2.marketplace_items ∧
      (KeysMatchIds inv →
        ∀ criteria, ∀ a ∈ (inv.delete_asset asset_id).2.search_assets criteria,
          a.asset_id ≠ asset_id)) := by
  obtain ⟨-, -, -, hmnodup⟩ := reachable_inventoryWF h
  constructor
  · intro hc
    exact delete_asset_not_found inv asset_id hc
  · intro hc
    rw [delete_asset_found inv asset_id hc]
    refine ⟨rfl, ?_, ?_, ?_, ?_⟩
    · exact dictGet_dictDel_self ..
    · rw [dictContains_eq_false_iff, dictKeys_dictDel]
      intro hmem
      have := (List.mem_filter.mp hmem).2
      simp at this
    · by_cases hin : asset_id ∈ inv.marketplace_items
      · rw [if_pos hin]
        intro hmem
        exact ((List.Nodup.mem_erase_iff hmnodup).mp hmem).1 rfl
      · rw [if_neg hin]
        exact hin
    · intro hkm criteria a ha
      unfold CampusInventory.search_assets at ha
      have hmem := (List.mem_filter.mp ha).1
      rcases List.mem_map.mp hmem with ⟨p, hp, rfl⟩
      obtain ⟨hpm, hpne⟩ := mem_pairs_dictDel hp
      rw [hkm p hpm]
      exact hpne

/-- Witness for C7 (amended) at the concrete state `invMarket`, whose only
asset is marketplace-listed: the delete succeeds, the lookup is absent
afterwards, and the identifier leaves the marketplace index. -/
theorem C7_delete_semantics_witness :
    dictContains invMarket.assets "ASSET-0001" = true ∧
    (invMarket.delete_asset "ASSET-0001").1 = true ∧
    (invMarket.delete_asset "ASSET-0001").2.get_asset "ASSET-0001" = none ∧
    "ASSET-0001" ∉ (invMarket.delete_asset "ASSET-0001").2.marketplace_items := by
  have hr : Reachable invMarket :=
    Reachable.add CampusInventory.init "Tablet" "T200" "Peripheral" 4 50 true
      false Reachable.init
  have h := (C7_delete_semantics invMarket "ASSET-0001" hr).2 (by decide)
  exact ⟨by decide, h.1, h.2.1, h.2.2.2.1⟩

/-- C8: update_asset leaves the marketplace index entirely unchanged for
every state, identifier and change mapping — even when the recomputed
strategy moves into or away from MARKETPLACE — since only add_asset and
delete_asset touch marketplace_items. -/
theorem C8_update_preserves_marketplace (inv : CampusInventory)
    (asset_id : String) (kwargs : List FieldChange) :
    (inv.update_asset asset_id kwargs).2.marketplace_items =
      inv.marketplace_items := by
  cases hget : dictGet inv.assets asset_id with
  | none => rw [update_asset_not_found inv asset_id kwargs hget]
  | some a => rw [update_asset_found inv asset_id kwargs a hget]

/-- C9 counterexample: the claim says the exported flat record contains all
of an Asset's attributes; but last_used is an Asset attribute (it is set in
`__init__` and visible to `hasattr`/`getattr`) and `to_dict` — the flat
record `export_to_json` stores under each identifier — has no last_used
key. -/
theorem C9_counterexample :
    "last_used" ∈ assetAttrNames ∧
    (CampusAsset.init "ASSET-0001" "Laptop" "ThinkPad X1" "Laptop" 1 85 true
      false).hasattr "last_used" = true ∧
    "last_used" ∉ ((CampusAsset.init "ASSET-0001" "Laptop" "ThinkPad X1" "Laptop"
      1 85 true false).to_dict.map Prod.fst) := by decide

/-- C9 (amended): the exported snapshot record has exactly the three
top-level fields assets (each asset's flat `to_dict` record under its
identifier), marketplace (the marketplace identifier sequence in order) and
timestamp (the formatted clock string); each flat record carries every Asset
attribute except last_used, with the disposal strategy serialized as its
display string (the enum's value, not its symbolic name) and every other
listed attribute holding the attribute's current value; building the record
only reads the inventory. -/
theorem C9_export_format (inv : CampusInventory) (now_iso : String)
    (a : CampusAsset) :
    inv.export_to_json now_iso =
      ExportData.mk (inv.assets.map (fun p => (p.1, p.2.to_dict)))
        inv.marketplace_items now_iso ∧
    a.to_dict.map Prod.fst = assetAttrNames.filter (fun k => k ≠ "last_used") ∧
    dictGet a.to_dict "disposal_strategy" =
      some (PyValue.str a.disposal_strategy.value) ∧
    (∀ k, k ∈ a.to_dict.map Prod.fst → k ≠ "disposal_strategy" →
      dictGet a.to_dict k = a.getattr k) := by
  refine ⟨rfl, rfl, rfl, ?_⟩
  intro k hk hne
  simp only [CampusAsset.to_dict, List.map_cons, List.map_nil, List.mem_cons,
    List.not_mem_nil, or_false] at hk
  rcases hk with rfl | rfl | rfl | rfl | rfl | rfl | rfl | rfl | rfl | rfl | rfl
  · rfl
  · rfl
  · rfl
  · rfl
  · rfl
  · rfl
  · rfl
  · rfl
  · rfl
  · rfl
  · exact absurd rfl hne

/-- Witness for C9 (amended) at the concrete state `invOne` and a fixed
timestamp string. -/
theorem C9_export_format_witness :
    (invOne.export_to_json "2026-10-12T00:00:00").marketplace =
      invOne.marketplace_items ∧
    (invOne.export_to_json "2026-10-12T00:00:00").timestamp =
      "2026-10-12T00:00:00" := by
  have h := (C9_export_format invOne "2026-10-12T00:00:00"
    (CampusAsset.init "ASSET-0001" "Laptop" "ThinkPad X1" "Laptop" 1 85 true
      false)).1
  rw [h]
  exact ⟨rfl, rfl⟩

/-- C10: in every inventory state reachable from the empty inventory via the
public operations, every identifier in the marketplace index is a key of the
asset map (so looking it up succeeds) and occurs in the index at most once —
the index never dangles and never holds duplicates. -/
theorem C10_marketplace_index_wf (inv : CampusInventory) (h : Reachable inv) :
    (∀ id ∈ inv.marketplace_items,
      dictContains inv.assets id = true ∧ (inv.get_asset id).isSome = true) ∧
    inv.marketplace_items.Nodup := by
  obtain ⟨-, -, hmarket, hmnodup⟩ := reachable_inventoryWF h
  refine ⟨fun id hid => ⟨hmarket id hid, ?_⟩, hmnodup⟩
  exact dictGet_isSome_of_contains (hmarket id hid)

/-- Witness for C10 at the concrete state `invMarket`, whose marketplace
index is the non-empty list ["ASSET-0001"]. -/
theorem C10_marketplace_index_wf_witness :
    Reachable invMarket ∧
    ((∀ id ∈ invMarket.marketplace_items,
      dictContains invMarket.assets id = true ∧
        (invMarket.get_asset id).isSome = true) ∧
    invMarket.marketplace_items.Nodup) := by
  have hr : Reachable invMarket :=
    Reachable.add CampusInventory.init "Tablet" "T200" "Peripheral" 4 50 true
      false Reachable.init
  exact ⟨hr, C10_marketplace_index_wf invMarket hr⟩
